import Mathlib

/-!
Verification development for the browser dashboard of the `demoner21/login`
repository.  The JavaScript modules under `src/static/js` (and the unnamed
source parts) are shallowly embedded as Lean definitions: DOM writes are
abstracted to message tags, timers become explicit state machines driven by
lists of network outcomes, and JS strings become lists of characters.
-/

namespace Dashboard

/- ===================================================================
   Embedding of src/static/js/module/text-normalizer.js
   (shipped in this snapshot as src/unnamed/part_006, second file)
   =================================================================== -/

namespace TextNormalizer

/-- Modelled from the character class of the JavaScript regex `\s` used in
`normalizedText.replace(/\s+/g, ' ')`, restricted to the whitespace code
points relevant to this module (space, tab, line feed, vertical tab, form
feed, carriage return, no-break space). -/
def isSpaceJS (c : Char) : Bool :=
  c == ' ' || c == '\t' || c == '\n' || c == '\x0b' || c == '\x0c' || c == '\r' || c == '\u00A0'

/-- Modelled from one entry of the JS object `CHAR_CORRECTIONS`: the key is
the character list `headChar :: restChars`, the value is `repl`. -/
structure Correction where
  headChar : Char
  restChars : List Char
  repl : List Char

/-- Modelled from `CHAR_CORRECTIONS` in text-normalizer.js, with the entries in
source (insertion) order.  The second character of the key `'Ã­'` is U+00AD
(soft hyphen) and the second character of the key `'Ã '` is a plain space,
exactly as in the source bytes. -/
def CHAR_CORRECTIONS : List Correction :=
  [⟨'Ã', ['§'], ['ç']⟩, ⟨'Ã', ['£'], ['ã']⟩, ⟨'Ã', ['¢'], ['â']⟩,
   ⟨'Ã', ['©'], ['é']⟩, ⟨'Ã', ['ª'], ['ê']⟩,
   ⟨'Ã', ['³'], ['ó']⟩, ⟨'Ã', ['´'], ['ô']⟩, ⟨'Ã', ['µ'], ['õ']⟩,
   ⟨'Ã', ['¡'], ['á']⟩, ⟨'Ã', ['\u00AD'], ['í']⟩,
   ⟨'Ã', ['º'], ['ú']⟩,
   ⟨'Ã', ['ƒ', 'Â', '§'], ['ç']⟩, ⟨'Ã', ['ƒ', 'Â', '£'], ['ã']⟩,
   ⟨'Ã', ['ƒ', 'Â', '¢'], ['â']⟩,
   ⟨'Ã', ['ƒ', 'Â', '©'], ['é']⟩, ⟨'Ã', ['ƒ', 'Â', 'ª'], ['ê']⟩,
   ⟨'Ã', ['ƒ', 'Â', '\u00AD'], ['í']⟩, ⟨'Ã', ['ƒ', 'Â', '³'], ['ó']⟩,
   ⟨'Ã', ['ƒ', 'Â', '´'], ['ô']⟩, ⟨'Ã', ['ƒ', 'Â', 'µ'], ['õ']⟩,
   ⟨'Ã', ['ƒ', 'Â', 'º'], ['ú']⟩,
   ⟨'Ã', [' '], ['à']⟩]

/-- Helper: Boolean test that the first list is an initial segment of the
second (the anchored match test of a literal regex pattern). -/
def hasPrefixChars : List Char → List Char → Bool
  | [], _ => true
  | _ :: _, [] => false
  | a :: as, b :: bs => a == b && hasPrefixChars as bs

/-- Modelled from `String.prototype.replace` with a global literal pattern
(`new RegExp(wrong, 'g')`), written with a structural fuel argument: a single
left-to-right pass replacing each non-overlapping occurrence of `p0 :: ps`
by `rep`.  Each step consumes at least one text character and exactly one
unit of fuel, so with the text length as initial fuel the `0` case is never
reached on non-empty text. -/
def replaceAllAux (p0 : Char) (ps rep : List Char) : Nat → List Char → List Char
  | _, [] => []
  | 0, t => t
  | fuel + 1, c :: rest =>
    if hasPrefixChars (p0 :: ps) (c :: rest) then
      rep ++ replaceAllAux p0 ps rep fuel (rest.drop ps.length)
    else
      c :: replaceAllAux p0 ps rep fuel rest

/-- Modelled from one global replacement pass of `normalizeName` step 1. -/
def replaceAll (p0 : Char) (ps rep t : List Char) : List Char :=
  replaceAllAux p0 ps rep t.length t

/-- Modelled from step 1 of `normalizeName`: the `for ... of
Object.entries(CHAR_CORRECTIONS)` loop applying each replacement in turn. -/
def applyCorrections (s : List Char) : List Char :=
  CHAR_CORRECTIONS.foldl (fun t k => replaceAll k.headChar k.restChars k.repl t) s

/-- Characters on which the identity model of `normalize('NFKC')` is exact:
ASCII code points and the Latin-1 letters of the case tables below.  All of
these are NFKC-invariant and none is a combining mark, so a string made of
them is NFKC-normal and the real builtin fixes it.  Compatibility characters
(U+00A0, U+00AA, U+00B4, U+00B5, ...) and combining marks are deliberately
excluded: on them the builtin rewrites the string. -/
def nfkcFixedChar (c : Char) : Bool :=
  decide (c.toNat ≤ 0x7F) ||
  ['Ã', 'ã', 'Ç', 'ç', 'Â', 'â', 'É', 'é', 'Ê', 'ê', 'Í', 'í',
   'Ó', 'ó', 'Ô', 'ô', 'Õ', 'õ', 'Ú', 'ú', 'Á', 'á', 'À', 'à'].contains c

/-- Modelled from the spec: step 2 of `normalizeName` calls the engine
builtin `String.prototype.normalize('NFKC')`, modelled as the identity.
This model is exact only on strings of NFKC-invariant non-combining
characters (see `nfkcFixedChar`): the real builtin rewrites compatibility
characters and composes base/combining-mark sequences, so the idempotence
theorem below quantifies only over the `nfkcFixedChar` domain, and the
title-case counterexample uses only NFKC-invariant characters, where the
identity model agrees with the builtin. -/
def nfkc (s : List Char) : List Char := s

/-- Helper for the whitespace model, with a structural fuel argument (each
step consumes at least one character and one unit of fuel): maximal runs of
non-whitespace characters, in order. -/
def wordsByAux : Nat → List Char → List (List Char)
  | _, [] => []
  | 0, _ => []
  | fuel + 1, c :: rest =>
    if isSpaceJS c then wordsByAux fuel rest
    else (c :: rest.takeWhile (fun d => !isSpaceJS d)) ::
      wordsByAux fuel (rest.dropWhile (fun d => !isSpaceJS d))

/-- Helper for the whitespace model: the maximal runs of non-whitespace
characters of a string, in order. -/
def wordsBy (s : List Char) : List (List Char) := wordsByAux s.length s

/-- Helper: join word lists with a single space between consecutive words
(the JS `join(' ')`). -/
def joinSp : List (List Char) → List Char
  | [] => []
  | [w] => w
  | w :: ws => w ++ ' ' :: joinSp ws

/-- Modelled from step 3 of `normalizeName`,
`normalizedText.replace(/\s+/g, ' ').trim()`: collapsing every maximal
whitespace run to one space and trimming the ends leaves exactly the
whitespace-separated words joined by single spaces. -/
def collapseWS (s : List Char) : List Char := joinSp (wordsBy s)

/-- Well-formedness of a word list: every word is non-empty and free of
whitespace characters (as produced by `wordsBy`). -/
def GoodWords (ws : List (List Char)) : Prop :=
  ∀ w ∈ ws, w ≠ [] ∧ ∀ c ∈ w, isSpaceJS c = false

/-- Modelled from `String.prototype.toLowerCase` as the per-character case
table for the ASCII and Latin-1 letters occurring in this code base; all
other characters of the modeled domain are case-invariant. -/
def lowerTable : List (Char × Char) :=
  [('A', 'a'), ('B', 'b'), ('C', 'c'), ('D', 'd'), ('E', 'e'), ('F', 'f'),
   ('G', 'g'), ('H', 'h'), ('I', 'i'), ('J', 'j'), ('K', 'k'), ('L', 'l'),
   ('M', 'm'), ('N', 'n'), ('O', 'o'), ('P', 'p'), ('Q', 'q'), ('R', 'r'),
   ('S', 's'), ('T', 't'), ('U', 'u'), ('V', 'v'), ('W', 'w'), ('X', 'x'),
   ('Y', 'y'), ('Z', 'z'),
   ('Ã', 'ã'), ('Ç', 'ç'), ('Â', 'â'), ('É', 'é'), ('Ê', 'ê'), ('Í', 'í'),
   ('Ó', 'ó'), ('Ô', 'ô'), ('Õ', 'õ'), ('Ú', 'ú'), ('Á', 'á'), ('À', 'à')]

/-- Modelled from `String.prototype.toUpperCase`, the table inverse to
`lowerTable`. -/
def upperTable : List (Char × Char) :=
  [('a', 'A'), ('b', 'B'), ('c', 'C'), ('d', 'D'), ('e', 'E'), ('f', 'F'),
   ('g', 'G'), ('h', 'H'), ('i', 'I'), ('j', 'J'), ('k', 'K'), ('l', 'L'),
   ('m', 'M'), ('n', 'N'), ('o', 'O'), ('p', 'P'), ('q', 'Q'), ('r', 'R'),
   ('s', 'S'), ('t', 'T'), ('u', 'U'), ('v', 'V'), ('w', 'W'), ('x', 'X'),
   ('y', 'Y'), ('z', 'Z'),
   ('ã', 'Ã'), ('ç', 'Ç'), ('â', 'Â'), ('é', 'É'), ('ê', 'Ê'), ('í', 'Í'),
   ('ó', 'Ó'), ('ô', 'Ô'), ('õ', 'Õ'), ('ú', 'Ú'), ('á', 'Á'), ('à', 'À')]

/-- Per-character lower casing via `lowerTable`. -/
def toLowerJS (c : Char) : Char :=
  match lowerTable.lookup c with
  | some v => v
  | none => c

/-- Per-character upper casing via `upperTable`. -/
def toUpperJS (c : Char) : Char :=
  match upperTable.lookup c with
  | some v => v
  | none => c

/-- Modelled from the JS set `LOWERCASE_WORDS` of text-normalizer.js. -/
def LOWERCASE_WORDS : List (List Char) :=
  ["de", "do", "da", "dos", "das", "e", "em", "na", "no",
   "nas", "nos", "por", "para", "com", "à", "a", "o", "as", "os"].map String.toList

/-- Modelled from `String.prototype.split(' ')` (split on the single-space
separator, keeping empty fields; the empty string splits to one empty
field). -/
def splitOnSpace : List Char → List (List Char)
  | [] => [[]]
  | c :: rest =>
    if c = ' ' then [] :: splitOnSpace rest
    else
      match splitOnSpace rest with
      | [] => [[c]]
      | w :: ws => (c :: w) :: ws

/-- Modelled from the word mapper of the `'title'` branch of `normalizeName`:
`word.charAt(0).toUpperCase() + word.slice(1).toLowerCase()`, except that a
`LOWERCASE_WORDS` member at a positive index stays lower case. -/
def titleWord (i : Nat) (w : List Char) : List Char :=
  let lowerWord := w.map toLowerJS
  if 0 < i ∧ lowerWord ∈ LOWERCASE_WORDS then lowerWord
  else
    match w with
    | [] => []
    | c :: cs => toUpperJS c :: cs.map toLowerJS

/-- Modelled from the `'title'` branch of `normalizeName`:
`split(' ')`, map with index, `join(' ')`. -/
def titleCase (t : List Char) : List Char :=
  joinSp ((splitOnSpace t).enum.map (fun iw => titleWord iw.1 iw.2))

/-- Modelled from the `caseType` parameter after `caseType.toLowerCase()`:
the four branches of the final `switch` (the `default` branch of the switch is
`keep`). -/
inductive CaseType
  | lower
  | upper
  | title
  | keep
deriving DecidableEq

/-- Modelled from a JS argument value: either a string or any non-string
value (`null`, `undefined`, numbers, objects ...). -/
inductive JSVal
  | jstr (s : List Char)
  | other
deriving DecidableEq

/-- Modelled from `normalizeName(text, caseType)` of text-normalizer.js: the
falsy/non-string guard returning `''`, then character corrections, NFKC
normalization, whitespace collapsing, and case formatting. -/
def normalizeName (text : JSVal) (caseType : CaseType) : List Char :=
  match text with
  | JSVal.other => []
  | JSVal.jstr [] => []
  | JSVal.jstr (c0 :: cs0) =>
    let t1 := applyCorrections (c0 :: cs0)
    let t2 := nfkc t1
    let t3 := collapseWS t2
    match caseType with
    | CaseType.lower => t3.map toLowerJS
    | CaseType.upper => t3.map toUpperJS
    | CaseType.title => titleCase t3
    | CaseType.keep => t3

end TextNormalizer

/- ===================================================================
   Embedding of src/static/js/module/api.js and
   src/static/js/module/auth-session.js
   =================================================================== -/

namespace Api

/-- Modelled from the result of a browser `fetch` call: either the promise
resolves to a response with an HTTP status, or it rejects (network error). -/
inductive NetResult
  | resp (status : Nat)
  | netErr
deriving DecidableEq

/-- Modelled from `Response.ok`: status in the inclusive range 200-299. -/
def isOkStatus (status : Nat) : Bool :=
  200 ≤ status && status ≤ 299

/-- Modelled from `logout()` in auth-session.js:
`window.location.href = '/static/login.html'`. -/
def loginRedirectUrl : String := "/static/login.html"

/-- Observable outcome of one API-layer call: whether the promise resolved
(`ok = true`) or threw, and the browser redirect performed, if any. -/
structure ApiCallResult where
  ok : Bool
  redirect : Option String
deriving DecidableEq

/-- Modelled from `fetchApi(url, options)` of api.js for a single in-flight
invocation (`isRefreshing` is `false` at entry; the queueing branch for a
concurrent refresh is not exercised by a lone call).  `r1` is the outcome of
the original request, `refreshOk` the return value of `refreshToken()`, and
`r2` the outcome of the retried request after a successful refresh. -/
def fetchApi (r1 : NetResult) (refreshOk : Bool) (r2 : NetResult) : ApiCallResult :=
  match r1 with
  | NetResult.netErr => ⟨false, none⟩
  | NetResult.resp st =>
    if st = 401 then
      if refreshOk then
        match r2 with
        | NetResult.netErr => ⟨false, none⟩
        | NetResult.resp st2 => if isOkStatus st2 then ⟨true, none⟩ else ⟨false, none⟩
      else
        ⟨false, some loginRedirectUrl⟩
    else if isOkStatus st then ⟨true, none⟩
    else ⟨false, none⟩

/-- Modelled from `uploadShapefile(formData)` of api.js: a direct `fetch`
that calls `logout()` and throws on a 401 status, throws on any other non-ok
status, and resolves otherwise. -/
def uploadShapefile (r : NetResult) : ApiCallResult :=
  match r with
  | NetResult.netErr => ⟨false, none⟩
  | NetResult.resp st =>
    if st = 401 then ⟨false, some loginRedirectUrl⟩
    else if isOkStatus st then ⟨true, none⟩
    else ⟨false, none⟩

end Api

/- ===================================================================
   Common vocabulary for the polling state machines
   =================================================================== -/

/-- Abstraction of the `innerHTML` writes to a status element: one tag per
distinct assignment site in the polling/upload handlers (the interpolated
HTML text is abstracted to its message class). -/
inductive Msg
  | empty
  | infoStarted
  | jobReport (status : String)
  | infoProcessing
  | infoQueued
  | infoStartingBatch
  | infoWaiting
  | successDownload
  | successCompleted
  | successReady
  | errorTimeout
  | errorNetwork
  | errorStatusQuery
  | errorFailed
  | warningNoTalhao
  | errorDates
  | errorStart
  | errorFileCheck
deriving DecidableEq

/- ===================================================================
   Embedding of pollJobStatus
   (src/static/js/dashboard/roi-details-manager.js, lines 49-105)
   =================================================================== -/

namespace AnalysisPoll

/-- Modelled from the JSON body returned by `getAnalysisJobStatus`; only the
`status` field steers the control flow (`error_message` and `child_jobs` only
feed the rendered report, which is abstracted by `Msg.jobReport`). -/
structure AnalysisJob where
  status : String
deriving DecidableEq

/-- Modelled from the outcome of one `getAnalysisJobStatus(jobId)` call: the
promise resolves with a job (`fetchApi` already threw on non-ok statuses) or
rejects. -/
inductive Outcome
  | ok (job : AnalysisJob)
  | err
deriving DecidableEq

/-- State owned by one `pollJobStatus` interval: the captured `attempts`
counter, whether `intervalId` is still scheduled, the status element content,
and the number of status requests issued so far. -/
structure St where
  attempts : Nat
  active : Bool
  msg : Msg
  requests : Nat
deriving DecidableEq

/-- Modelled from `const maxAttempts = 120` in `pollJobStatus`. -/
def maxAttempts : Nat := 120

/-- Modelled from the `setInterval` callback of `pollJobStatus`: bump
`attempts`, stop on the ceiling, otherwise issue the status request and
dispatch on its outcome; a cleared interval never fires again. -/
def tick (s : St) (o : Outcome) : St :=
  if s.active = false then s
  else
    let a := s.attempts + 1
    if maxAttempts < a then
      { s with attempts := a, active := false, msg := Msg.errorTimeout }
    else
      match o with
      | Outcome.err =>
        { s with attempts := a, requests := s.requests + 1, active := false,
                 msg := Msg.errorNetwork }
      | Outcome.ok job =>
        let s1 := { s with attempts := a, requests := s.requests + 1,
                           msg := Msg.jobReport job.status }
        if job.status = "COMPLETED" ∨ job.status = "FAILED" then
          { s1 with active := false }
        else s1

/-- State set up by the body of `pollJobStatus` before the first tick. -/
def init : St := ⟨0, true, Msg.infoStarted, 0⟩

/-- Run the interval from a given state over a list of tick outcomes. -/
def runFrom (s : St) (outs : List Outcome) : St := outs.foldl tick s

/-- Run the interval from the start of `pollJobStatus`. -/
def run (outs : List Outcome) : St := runFrom init outs

end AnalysisPoll

/- ===================================================================
   Embedding of pollDownloadJobStatus
   (src/static/js/dashboard/roi-details-manager.js, lines 110-169)
   =================================================================== -/

namespace DLPoll

/-- Modelled from the JSON body of `/api/v1/roi/jobs/_jobId_/status`; the
`message` field only feeds rendered text and is abstracted away. -/
structure DownloadJob where
  status : String
  job_id : String
deriving DecidableEq

/-- Modelled from the outcome of the raw `fetch` of one tick: rejection, a
non-ok response with its status code, or an ok response whose JSON parsed to
a job. -/
inductive Outcome
  | netErr
  | errResp (status : Nat)
  | okResp (job : DownloadJob)
deriving DecidableEq

/-- State owned by one `pollDownloadJobStatus` interval; `downloads` records
the URLs passed to the synthetic anchor clicks, in order. -/
structure St where
  attempts : Nat
  active : Bool
  msg : Msg
  requests : Nat
  downloads : List String
deriving DecidableEq

/-- Modelled from `const maxAttempts = 12` in `pollDownloadJobStatus`. -/
def maxAttempts : Nat := 12

/-- Modelled from the `setInterval` callback of `pollDownloadJobStatus`:
bump `attempts`, stop on the ceiling, otherwise fetch the job status; a 404
keeps waiting silently, any other non-ok response stops with an error,
`COMPLETED` stops and clicks an anchor at the result URL, `FAILED` stops with
an error, `PROCESSING` and any other status keep polling. -/
def tick (s : St) (o : Outcome) : St :=
  if s.active = false then s
  else
    let a := s.attempts + 1
    if maxAttempts < a then
      { s with attempts := a, active := false, msg := Msg.errorTimeout }
    else
      match o with
      | Outcome.netErr =>
        { s with attempts := a, requests := s.requests + 1, active := false,
                 msg := Msg.errorNetwork }
      | Outcome.errResp st =>
        if st = 404 then
          { s with attempts := a, requests := s.requests + 1 }
        else
          { s with attempts := a, requests := s.requests + 1, active := false,
                   msg := Msg.errorStatusQuery }
      | Outcome.okResp job =>
        if job.status = "COMPLETED" then
          { s with attempts := a, requests := s.requests + 1, active := false,
                   msg := Msg.successDownload,
                   downloads := s.downloads ++ ["/api/v1/roi/jobs/" ++ job.job_id ++ "/result"] }
        else if job.status = "FAILED" then
          { s with attempts := a, requests := s.requests + 1, active := false,
                   msg := Msg.errorFailed }
        else if job.status = "PROCESSING" then
          { s with attempts := a, requests := s.requests + 1, msg := Msg.infoProcessing }
        else
          { s with attempts := a, requests := s.requests + 1, msg := Msg.infoQueued }

/-- State set up by the body of `pollDownloadJobStatus` before the first
tick. -/
def init : St := ⟨0, true, Msg.infoWaiting, 0, []⟩

/-- Run the interval from a given state over a list of tick outcomes. -/
def runFrom (s : St) (outs : List Outcome) : St := outs.foldl tick s

/-- Run the interval from the start of `pollDownloadJobStatus`. -/
def run (outs : List Outcome) : St := runFrom init outs

end DLPoll

/- ===================================================================
   Embedding of pollForFile
   (src/static/js/dashboard/roi-manager.js, lines 329-357)
   =================================================================== -/

namespace PollForFile

/-- Modelled from the outcome of the `HEAD` fetch of one tick. -/
inductive Outcome
  | netErr
  | resp (status : Nat)
deriving DecidableEq

/-- State owned by one `pollForFile` interval; note that this poller has no
`attempts` counter in the source. -/
structure St where
  url : String
  active : Bool
  msg : Msg
  requests : Nat
  downloads : List String
deriving DecidableEq

/-- Modelled from the `setInterval` callback of `pollForFile`: a `HEAD`
request every tick; an ok response stops the timer and clicks an anchor at
the download URL, a non-ok response (the file is not ready) changes nothing
and waits for the next tick, a rejected fetch stops the timer with an error
message. -/
def tick (s : St) (o : Outcome) : St :=
  if s.active = false then s
  else
    match o with
    | Outcome.netErr =>
      { s with requests := s.requests + 1, active := false, msg := Msg.errorFileCheck }
    | Outcome.resp st =>
      if Api.isOkStatus st then
        { s with requests := s.requests + 1, active := false, msg := Msg.successReady,
                 downloads := s.downloads ++ [s.url] }
      else
        { s with requests := s.requests + 1 }

/-- Modelled from whether a tick outcome stops this poller: only a ready
file (ok response) or a network error does. -/
def terminalOutcome (o : Outcome) : Bool :=
  match o with
  | Outcome.netErr => true
  | Outcome.resp st => Api.isOkStatus st

/-- State set up by the body of `pollForFile` before the first tick. -/
def init (url : String) : St := ⟨url, true, Msg.infoWaiting, 0, []⟩

/-- Run the interval from a given state over a list of tick outcomes. -/
def runFrom (s : St) (outs : List Outcome) : St := outs.foldl tick s

/-- Run the interval from the start of `pollForFile`. -/
def run (url : String) (outs : List Outcome) : St := runFrom (init url) outs

end PollForFile

/- ===================================================================
   Embedding of pollJobStatus of src/unnamed/part_001 (lines 49-107), the
   download-job poller that navigates to the result URL on completion
   =================================================================== -/

namespace JobPollP1

/-- Modelled from the outcome of the raw `fetch` of one tick: rejection, a
non-ok response, or an ok response whose JSON carries `status`. -/
inductive Outcome
  | netErr
  | errResp (status : Nat)
  | okResp (status : String)
deriving DecidableEq

/-- State owned by one `pollJobStatus` interval of part_001; `navigations`
records the assignments to `window.location.href`, and `jobId` is the
captured function argument. -/
structure St where
  jobId : String
  attempts : Nat
  active : Bool
  msg : Msg
  requests : Nat
  navigations : List String
deriving DecidableEq

/-- Modelled from `const maxAttempts = 60` in part_001 `pollJobStatus`. -/
def maxAttempts : Nat := 60

/-- Modelled from the `setInterval` callback of part_001 `pollJobStatus`:
bump `attempts`, stop on the ceiling, otherwise fetch the status; any non-ok
response stops with an error; `COMPLETED` stops and navigates to the result
URL, `FAILED` stops, `PROCESSING`/`PENDING` render progress, any other status
leaves the element unchanged (the switch has no default case). -/
def tick (s : St) (o : Outcome) : St :=
  if s.active = false then s
  else
    let a := s.attempts + 1
    if maxAttempts < a then
      { s with attempts := a, active := false, msg := Msg.errorTimeout }
    else
      match o with
      | Outcome.netErr =>
        { s with attempts := a, requests := s.requests + 1, active := false,
                 msg := Msg.errorNetwork }
      | Outcome.errResp _ =>
        { s with attempts := a, requests := s.requests + 1, active := false,
                 msg := Msg.errorStatusQuery }
      | Outcome.okResp st =>
        if st = "COMPLETED" then
          { s with attempts := a, requests := s.requests + 1, active := false,
                   msg := Msg.successCompleted,
                   navigations := s.navigations ++ ["/api/v1/roi/jobs/" ++ s.jobId ++ "/result"] }
        else if st = "FAILED" then
          { s with attempts := a, requests := s.requests + 1, active := false,
                   msg := Msg.errorFailed }
        else if st = "PROCESSING" then
          { s with attempts := a, requests := s.requests + 1, msg := Msg.infoProcessing }
        else if st = "PENDING" then
          { s with attempts := a, requests := s.requests + 1, msg := Msg.infoQueued }
        else
          { s with attempts := a, requests := s.requests + 1 }

/-- State set up by the body of part_001 `pollJobStatus` before the first
tick. -/
def init (jobId : String) : St := ⟨jobId, 0, true, Msg.infoStarted, 0, []⟩

/-- Run the interval from a given state over a list of tick outcomes. -/
def runFrom (s : St) (outs : List Outcome) : St := outs.foldl tick s

/-- Run the interval from the start of part_001 `pollJobStatus`. -/
def run (jobId : String) (outs : List Outcome) : St := runFrom (init jobId) outs

end JobPollP1

/- ===================================================================
   Timer table: the browser keeps one entry per live `setInterval`; each
   poller closure only ever touches the entry of its own `intervalId`
   =================================================================== -/

/-- Modelled from the browser timer table restricted to the polling
intervals: an association list from interval id to the poller state owned by
that interval. -/
abbrev TimerSys (σ : Type) : Type := List (Nat × σ)

/-- Modelled from one interval callback firing: only the entry whose id
matches is updated (a closure holds its own `intervalId` and state). -/
def stepTimer {σ : Type} (sys : TimerSys σ) (id : Nat) (f : σ → σ) : TimerSys σ :=
  sys.map (fun e => if e.1 = id then (e.1, f e.2) else e)

/-- Modelled from a call to `setInterval` in one of the poll starters: a new
timer with a fresh id is registered; existing timers are untouched. -/
def startTimer {σ : Type} (sys : TimerSys σ) (id : Nat) (st : σ) : TimerSys σ :=
  sys ++ [(id, st)]

/-- Look up the state owned by a given interval id. -/
def lookupTimer {σ : Type} (j : Nat) (sys : TimerSys σ) : Option σ :=
  (sys.find? (fun e => e.1 == j)).map Prod.snd

/- ===================================================================
   Embedding of the ROI list view
   (src/static/js/dashboard/roi-manager.js)
   =================================================================== -/

namespace RoiList

/-- Modelled from `const ROIS_PER_PAGE = 10` in roi-manager.js. -/
def ROIS_PER_PAGE : Nat := 10

/-- Modelled from one call to `fetchUserROIs(limit, offset, variedade,
propriedade)` issued by `loadUserROIs`. -/
structure RoisRequest where
  limit : Nat
  offset : Nat
  variedade : String
  propriedade : String
deriving DecidableEq

/-- Modelled from the module-level state of roi-manager.js
(`currentPage`, `currentSearchTerm`, `currentPropertyFilter`), plus the log
of list requests issued. -/
structure ListState where
  currentPage : Nat
  currentSearchTerm : String
  currentPropertyFilter : String
  requests : List RoisRequest
deriving DecidableEq

/-- Modelled from the initializers `currentPage = 1`,
`currentSearchTerm = ''`, `currentPropertyFilter = ''`. -/
def initListState : ListState := ⟨1, "", "", []⟩

/-- Modelled from `loadUserROIs()`: compute
`offset = (currentPage - 1) * ROIS_PER_PAGE` and call `fetchUserROIs` with
the current filters. -/
def loadUserROIs (s : ListState) : ListState :=
  { s with requests := s.requests ++
      [⟨ROIS_PER_PAGE, (s.currentPage - 1) * ROIS_PER_PAGE,
        s.currentSearchTerm, s.currentPropertyFilter⟩] }

/-- Modelled from the events handled by `setupROIEvents` (and the reloads
from `deleteROI` success and the edit-modal save) that touch the list
state.  The view/edit/delete button clicks themselves do not change the
pagination state. -/
inductive Event
  | propertyChange (v : String)
  | varietyChange (v : String)
  | nextPage
  | prevPage
  | backToList
  | deleteSuccess
  | editSaved
deriving DecidableEq

/-- Modelled from the handlers registered in `setupROIEvents`: both filter
changes reset `currentPage` to 1 and reload, `nextPageBtn` increments and
reloads, `prevPageBtn` decrements and reloads only when `currentPage > 1`,
`backToList` restores the list without touching `currentPage`; a successful
delete or edit-save reloads the current page. -/
def step (s : ListState) (e : Event) : ListState :=
  match e with
  | Event.propertyChange v =>
    loadUserROIs { s with currentPropertyFilter := v, currentPage := 1 }
  | Event.varietyChange v =>
    loadUserROIs { s with currentSearchTerm := v, currentPage := 1 }
  | Event.nextPage =>
    loadUserROIs { s with currentPage := s.currentPage + 1 }
  | Event.prevPage =>
    if 1 < s.currentPage then
      loadUserROIs { s with currentPage := s.currentPage - 1 }
    else s
  | Event.backToList => s
  | Event.deleteSuccess => loadUserROIs s
  | Event.editSaved => loadUserROIs s

/-- Run the list view from its initial state over a list of events. -/
def runList (evs : List Event) : ListState := evs.foldl step initListState

end RoiList

/- ===================================================================
   Embedding of the ROI details view
   (src/static/js/dashboard/roi-details-manager.js)
   =================================================================== -/

namespace Details

/-- Modelled from the outcome of `startBatchDownloadForIds`: the promise
resolves with a body that may or may not carry a truthy `job_id`, or
rejects. -/
inductive ApiOutcome
  | resolved (jobId : Option String)
  | rejected
deriving DecidableEq

/-- Modelled from the details-view state of roi-details-manager.js: the
module-level set `talhoesSelecionados`, the rendered counter
(`contadorLote.textContent`), the visibility of the `lote-actions` container,
the `geeDownloadStatus` element, the log of `startBatchDownloadForIds` calls
(the `Array.from(set)` argument is modelled as the set itself), and the
number of `pollDownloadJobStatus` loops started. -/
structure DState where
  talhoesSelecionados : Finset ℕ
  contadorLote : Nat
  loteActionsVisible : Bool
  geeMsg : Msg
  batchRequests : List (Finset ℕ × String × String × String)
  pollsStarted : Nat
deriving DecidableEq

/-- Modelled from `atualizarBotaoLote()` in `setupInteractiveMap`: write the
set size to the counter and show the batch button exactly when the size is
positive. -/
def atualizarBotaoLote (s : DState) : DState :=
  { s with contadorLote := s.talhoesSelecionados.card,
           loteActionsVisible := decide (0 < s.talhoesSelecionados.card) }

/-- Modelled from the `layer.on('click')` handler of `setupInteractiveMap`:
a falsy `talhaoId` (modelled as 0, since the ids are numbers) returns early;
otherwise the id is toggled in the selection set and the counter updated. -/
def layerClick (s : DState) (talhaoId : Nat) : DState :=
  if talhaoId = 0 then s
  else
    let sel :=
      if talhaoId ∈ s.talhoesSelecionados then s.talhoesSelecionados.erase talhaoId
      else insert talhaoId s.talhoesSelecionados
    atualizarBotaoLote { s with talhoesSelecionados := sel }

/-- Modelled from the `btnProcessarLote.onclick` handler of
`setupDetailsEventListeners`: early returns on an empty selection or missing
dates, otherwise the batch request is issued; on a response with a truthy
`job_id` the download poll starts and the selection is cleared and the
counter hidden, while a missing `job_id` or a rejection lands in the catch
block leaving the selection untouched. -/
def processarLoteClick (s : DState) (startDate endDate cloud : String)
    (api : ApiOutcome) : DState :=
  if s.talhoesSelecionados.card = 0 then
    { s with geeMsg := Msg.warningNoTalhao }
  else if startDate = "" ∨ endDate = "" then
    { s with geeMsg := Msg.errorDates }
  else
    let s1 := { s with geeMsg := Msg.infoStartingBatch,
                       batchRequests := s.batchRequests ++
                         [(s.talhoesSelecionados, startDate, endDate, cloud)] }
    match api with
    | ApiOutcome.resolved (some _) =>
      { s1 with pollsStarted := s1.pollsStarted + 1, geeMsg := Msg.infoWaiting,
                talhoesSelecionados := ∅, contadorLote := 0,
                loteActionsVisible := false }
    | ApiOutcome.resolved none => { s1 with geeMsg := Msg.errorStart }
    | ApiOutcome.rejected => { s1 with geeMsg := Msg.errorStart }

/-- Modelled from `displayROIDetails(roi)`: the selection set is cleared and
`renderROIDetailsContent` rebuilds the form with the counter at `0` and the
`lote-actions` container hidden. -/
def displayROIDetails (s : DState) : DState :=
  { s with talhoesSelecionados := ∅, contadorLote := 0,
           loteActionsVisible := false, geeMsg := Msg.empty }

/-- Selection-changing events of the details view. -/
inductive Event
  | click (talhaoId : Nat)
  | submitBatch (startDate endDate cloud : String) (api : ApiOutcome)
  | enterView
deriving DecidableEq

/-- Step the details view by one event. -/
def step (s : DState) (e : Event) : DState :=
  match e with
  | Event.click id => layerClick s id
  | Event.submitBatch sd ed cl api => processarLoteClick s sd ed cl api
  | Event.enterView => displayROIDetails s

/-- State right after the first `displayROIDetails` call. -/
def initDetails : DState := ⟨∅, 0, false, Msg.empty, [], 0⟩

/-- Run the details view from its initial render over a list of events. -/
def runDetails (evs : List Event) : DState := evs.foldl step initDetails

/-- Invariant of the batch-selection counter: the rendered counter equals
the size of the selection set and the batch button is visible exactly when
the set is non-empty. -/
def CounterInv (s : DState) : Prop :=
  s.contadorLote = s.talhoesSelecionados.card ∧
  (s.loteActionsVisible = true ↔ 0 < s.talhoesSelecionados.card)

end Details

/- ===================================================================
   Generic helper lemmas
   =================================================================== -/

/-- Helper: a predicate preserved by every step is preserved by a fold. -/
theorem foldl_inv {σ ε : Type} (P : σ → Prop) (f : σ → ε → σ)
    (hstep : ∀ s e, P s → P (f s e)) :
    ∀ (l : List ε) (s : σ), P s → P (l.foldl f s)
  | [], _, h => h
  | e :: l, s, h => foldl_inv P f hstep l (f s e) (hstep s e h)

/-- Helper: a fixed point of every step is a fixed point of the fold. -/
theorem foldl_fixed {σ ε : Type} (f : σ → ε → σ) (s : σ)
    (h : ∀ e, f s e = s) : ∀ l : List ε, l.foldl f s = s
  | [] => rfl
  | e :: l => by
    rw [List.foldl_cons, h e]
    exact foldl_fixed f s h l

/- ===================================================================
   Claims C4 and C10: the ROI list pagination
   =================================================================== -/

/-- Helper: no list-view event ever moves `currentPage` below 1. -/
theorem roiList_step_page_ge_one (s : RoiList.ListState) (e : RoiList.Event)
    (h : 1 ≤ s.currentPage) : 1 ≤ (RoiList.step s e).currentPage := by
  cases e with
  | propertyChange v => simp [RoiList.step, RoiList.loadUserROIs]
  | varietyChange v => simp [RoiList.step, RoiList.loadUserROIs]
  | nextPage =>
    simp only [RoiList.step, RoiList.loadUserROIs]
    omega
  | prevPage =>
    simp only [RoiList.step]
    split
    · simp only [RoiList.loadUserROIs]
      omega
    · exact h
  | backToList => exact h
  | deleteSuccess => simpa [RoiList.loadUserROIs] using h
  | editSaved => simpa [RoiList.loadUserROIs] using h

/-- Claim C10: the ROI list page number never drops below 1; `currentPage`
starts at 1, filter changes reset it to 1, the previous-page handler
decrements only above 1, and no other handler decreases it, so after any
sequence of list-view events `currentPage >= 1`. -/
theorem currentPage_never_below_one (evs : List RoiList.Event) :
    1 ≤ (RoiList.runList evs).currentPage :=
  foldl_inv (fun s => 1 ≤ s.currentPage) RoiList.step
    roiList_step_page_ge_one evs RoiList.initListState (by decide)

/-- Claim C4: for every list state with page `p >= 1`, `loadUserROIs`
requests the backend with `limit = 10` and `offset = 10 * (p - 1)`, the
next-page handler increments `p` by exactly 1, and the previous-page handler
decrements by exactly 1 only when `p > 1`, never taking `p` below 1. -/
theorem roi_list_pagination (s : RoiList.ListState) (h : 1 ≤ s.currentPage) :
    (RoiList.loadUserROIs s).requests = s.requests ++
      [⟨10, 10 * (s.currentPage - 1), s.currentSearchTerm, s.currentPropertyFilter⟩] ∧
    (RoiList.step s RoiList.Event.nextPage).currentPage = s.currentPage + 1 ∧
    (RoiList.step s RoiList.Event.prevPage).currentPage =
      (if 1 < s.currentPage then s.currentPage - 1 else s.currentPage) ∧
    1 ≤ (RoiList.step s RoiList.Event.prevPage).currentPage := by
  refine ⟨?_, ?_, ?_, ?_⟩
  · simp [RoiList.loadUserROIs, RoiList.ROIS_PER_PAGE, Nat.mul_comm]
  · simp [RoiList.step, RoiList.loadUserROIs]
  · simp only [RoiList.step, RoiList.loadUserROIs]
    split <;> simp
  · exact roiList_step_page_ge_one s RoiList.Event.prevPage h

/-- Witness for C4 at the concrete page 3. -/
theorem roi_list_pagination_witness :
    1 ≤ (RoiList.ListState.mk 3 "" "" []).currentPage ∧
    ((RoiList.loadUserROIs (RoiList.ListState.mk 3 "" "" [])).requests =
        [] ++ [⟨10, 10 * (3 - 1), "", ""⟩] ∧
      (RoiList.step (RoiList.ListState.mk 3 "" "" []) RoiList.Event.nextPage).currentPage = 3 + 1 ∧
      (RoiList.step (RoiList.ListState.mk 3 "" "" []) RoiList.Event.prevPage).currentPage =
        (if 1 < 3 then 3 - 1 else 3) ∧
      1 ≤ (RoiList.step (RoiList.ListState.mk 3 "" "" []) RoiList.Event.prevPage).currentPage) :=
  ⟨by decide, roi_list_pagination (RoiList.ListState.mk 3 "" "" []) (by decide)⟩

/- ===================================================================
   Claims C7 and C8: the details-view batch selection
   =================================================================== -/

/-- Helper: every details-view event preserves the counter invariant. -/
theorem details_step_counter_inv (s : Details.DState) (e : Details.Event)
    (h : Details.CounterInv s) : Details.CounterInv (Details.step s e) := by
  cases e with
  | click id =>
    simp only [Details.step, Details.layerClick]
    split
    · exact h
    · constructor <;> simp [Details.atualizarBotaoLote]
  | submitBatch sd ed cl api =>
    simp only [Details.step, Details.processarLoteClick]
    split
    · exact h
    · split
      · exact h
      · cases api with
        | resolved j =>
          cases j with
          | some jid => constructor <;> simp
          | none => exact h
        | rejected => exact h
  | enterView => constructor <;> simp [Details.step, Details.displayROIDetails]

/-- Claim C8: the batch-selection counter is a maintained invariant: after
every selection-changing event the displayed counter equals the size of the
selection set and the batch button is visible exactly when the set is
non-empty; moreover clicking the same talhao twice restores the selection
set to its prior state. -/
theorem batch_counter_invariant :
    (∀ evs : List Details.Event, Details.CounterInv (Details.runDetails evs)) ∧
    (∀ (s : Details.DState) (id : Nat),
      (Details.layerClick (Details.layerClick s id) id).talhoesSelecionados =
        s.talhoesSelecionados) := by
  constructor
  · intro evs
    exact foldl_inv Details.CounterInv Details.step details_step_counter_inv
      evs Details.initDetails (by constructor <;> simp [Details.initDetails])
  · intro s id
    by_cases h0 : id = 0
    · simp [Details.layerClick, h0]
    · by_cases hmem : id ∈ s.talhoesSelecionados
      · simp [Details.layerClick, h0, Details.atualizarBotaoLote, hmem,
          Finset.insert_erase hmem]
      · simp [Details.layerClick, h0, Details.atualizarBotaoLote, hmem,
          Finset.erase_insert hmem]

/-- Claim C7: submitting a batch download with an empty selection or a
missing start/end date renders an inline warning/error, performs no backend
request, starts no poll, and leaves the selection set unchanged. -/
theorem invalid_batch_submit_no_request (s : Details.DState)
    (startDate endDate cloud : String) (api : Details.ApiOutcome)
    (h : s.talhoesSelecionados.card = 0 ∨ startDate = "" ∨ endDate = "") :
    (Details.processarLoteClick s startDate endDate cloud api).batchRequests = s.batchRequests ∧
    (Details.processarLoteClick s startDate endDate cloud api).talhoesSelecionados =
      s.talhoesSelecionados ∧
    (Details.processarLoteClick s startDate endDate cloud api).pollsStarted = s.pollsStarted ∧
    ((Details.processarLoteClick s startDate endDate cloud api).geeMsg = Msg.warningNoTalhao ∨
     (Details.processarLoteClick s startDate endDate cloud api).geeMsg = Msg.errorDates) := by
  by_cases hcard : s.talhoesSelecionados.card = 0
  · simp [Details.processarLoteClick, hcard]
  · have hdates : startDate = "" ∨ endDate = "" := by tauto
    simp [Details.processarLoteClick, hcard, hdates]

/-- Witness for C7: an empty selection with filled dates. -/
theorem invalid_batch_submit_no_request_witness :
    ((Details.initDetails.talhoesSelecionados.card = 0 ∨ ("2024-01-01" : String) = "" ∨
        ("2024-02-01" : String) = "") ∧
      (Details.processarLoteClick Details.initDetails "2024-01-01" "2024-02-01" "5"
          (Details.ApiOutcome.resolved (some "j1"))).batchRequests =
        Details.initDetails.batchRequests ∧
      (Details.processarLoteClick Details.initDetails "2024-01-01" "2024-02-01" "5"
          (Details.ApiOutcome.resolved (some "j1"))).talhoesSelecionados =
        Details.initDetails.talhoesSelecionados ∧
      (Details.processarLoteClick Details.initDetails "2024-01-01" "2024-02-01" "5"
          (Details.ApiOutcome.resolved (some "j1"))).pollsStarted =
        Details.initDetails.pollsStarted ∧
      ((Details.processarLoteClick Details.initDetails "2024-01-01" "2024-02-01" "5"
          (Details.ApiOutcome.resolved (some "j1"))).geeMsg = Msg.warningNoTalhao ∨
       (Details.processarLoteClick Details.initDetails "2024-01-01" "2024-02-01" "5"
          (Details.ApiOutcome.resolved (some "j1"))).geeMsg = Msg.errorDates)) :=
  ⟨Or.inl (by decide),
   invalid_batch_submit_no_request Details.initDetails "2024-01-01" "2024-02-01" "5"
     (Details.ApiOutcome.resolved (some "j1")) (Or.inl (by decide))⟩

/- ===================================================================
   Helper lemmas about the pollers
   =================================================================== -/

/-- Helper: a cleared analysis-poll interval never fires again. -/
theorem analysisPoll_inactive_fixed (s : AnalysisPoll.St) (h : s.active = false) :
    ∀ outs, AnalysisPoll.runFrom s outs = s := by
  intro outs
  exact foldl_fixed AnalysisPoll.tick s (fun o => by simp [AnalysisPoll.tick, h]) outs

/-- Helper: a cleared download-poll interval never fires again. -/
theorem dlPoll_inactive_fixed (s : DLPoll.St) (h : s.active = false) :
    ∀ outs, DLPoll.runFrom s outs = s := by
  intro outs
  exact foldl_fixed DLPoll.tick s (fun o => by simp [DLPoll.tick, h]) outs

/-- Helper: a cleared file-poll interval never fires again. -/
theorem pollForFile_inactive_fixed (s : PollForFile.St) (h : s.active = false) :
    ∀ outs, PollForFile.runFrom s outs = s := by
  intro outs
  exact foldl_fixed PollForFile.tick s (fun o => by simp [PollForFile.tick, h]) outs

/-- Helper: a cleared part_001 job-poll interval never fires again. -/
theorem jobPollP1_inactive_fixed (s : JobPollP1.St) (h : s.active = false) :
    ∀ outs, JobPollP1.runFrom s outs = s := by
  intro outs
  exact foldl_fixed JobPollP1.tick s (fun o => by simp [JobPollP1.tick, h]) outs

/-- Helper: one analysis-poll tick preserves the request-count invariant. -/
theorem analysisPoll_tick_inv (s : AnalysisPoll.St) (o : AnalysisPoll.Outcome)
    (h : s.requests ≤ AnalysisPoll.maxAttempts ∧
      (s.active = true → s.requests ≤ s.attempts)) :
    (AnalysisPoll.tick s o).requests ≤ AnalysisPoll.maxAttempts ∧
      ((AnalysisPoll.tick s o).active = true →
        (AnalysisPoll.tick s o).requests ≤ (AnalysisPoll.tick s o).attempts) := by
  obtain ⟨h1, h2⟩ := h
  by_cases hact : s.active = false
  · simp [AnalysisPoll.tick, hact, h1, h2]
  · have hac : s.active = true := by revert hact; cases s.active <;> simp
    have hra := h2 hac
    simp only [AnalysisPoll.tick, hact, if_false]
    by_cases hm : AnalysisPoll.maxAttempts < s.attempts + 1
    · simp [hm, h1]
    · simp only [hm, if_false]
      cases o with
      | err =>
        refine ⟨by simp; omega, fun ha => ?_⟩
        simp at ha
      | ok job =>
        by_cases hs : job.status = "COMPLETED" ∨ job.status = "FAILED"
        · simp only [hs, if_true]
          refine ⟨by simp; omega, fun ha => by simp at ha⟩
        · simp only [hs, if_false]
          refine ⟨by simp; omega, fun _ => by simp; omega⟩

/-- Helper: one download-poll tick preserves the request-count invariant. -/
theorem dlPoll_tick_inv (s : DLPoll.St) (o : DLPoll.Outcome)
    (h : s.requests ≤ DLPoll.maxAttempts ∧
      (s.active = true → s.requests ≤ s.attempts)) :
    (DLPoll.tick s o).requests ≤ DLPoll.maxAttempts ∧
      ((DLPoll.tick s o).active = true →
        (DLPoll.tick s o).requests ≤ (DLPoll.tick s o).attempts) := by
  obtain ⟨h1, h2⟩ := h
  by_cases hact : s.active = false
  · simp [DLPoll.tick, hact, h1, h2]
  · have hac : s.active = true := by revert hact; cases s.active <;> simp
    have hra := h2 hac
    simp only [DLPoll.tick, hact, if_false]
    by_cases hm : DLPoll.maxAttempts < s.attempts + 1
    · simp [hm, h1]
    · simp only [hm, if_false]
      cases o with
      | netErr =>
        refine ⟨by simp; omega, fun ha => by simp at ha⟩
      | errResp st =>
        by_cases h4 : st = 404
        · simp only [h4, if_true]
          refine ⟨by simp; omega, fun _ => by simp; omega⟩
        · simp only [h4, if_false]
          refine ⟨by simp; omega, fun ha => by simp at ha⟩
      | okResp job =>
        by_cases hc : job.status = "COMPLETED"
        · simp only [hc, if_true]
          refine ⟨by simp; omega, fun ha => by simp at ha⟩
        · simp only [hc, if_false]
          by_cases hf : job.status = "FAILED"
          · simp only [hf, if_true]
            refine ⟨by simp; omega, fun ha => by simp at ha⟩
          · simp only [hf, if_false]
            by_cases hp : job.status = "PROCESSING"
            · simp only [hp, if_true]
              refine ⟨by simp; omega, fun _ => by simp; omega⟩
            · simp only [hp, if_false]
              refine ⟨by simp; omega, fun _ => by simp; omega⟩

/-- Helper: while the file stays unready (HTTP 404 on the HEAD request),
`pollForFile` stays live and issues one request per tick. -/
theorem pollForFile_404_live (n : Nat) :
    ∀ s : PollForFile.St, s.active = true →
      (PollForFile.runFrom s (List.replicate n (PollForFile.Outcome.resp 404))).active = true ∧
      (PollForFile.runFrom s (List.replicate n (PollForFile.Outcome.resp 404))).requests =
        s.requests + n := by
  induction n with
  | zero => intro s h; simp [PollForFile.runFrom, h]
  | succ n ih =>
    intro s h
    rw [List.replicate_succ]
    have ht : PollForFile.tick s (PollForFile.Outcome.resp 404) =
        { s with requests := s.requests + 1 } := by
      simp [PollForFile.tick, h, Api.isOkStatus]
    simp only [PollForFile.runFrom, List.foldl_cons, ht]
    have := ih { s with requests := s.requests + 1 } (by simp [h])
    simp only [PollForFile.runFrom] at this
    obtain ⟨ha, hr⟩ := this
    refine ⟨ha, ?_⟩
    rw [hr]
    omega

/- ===================================================================
   Claim C1: boundedness of the polling loops
   =================================================================== -/

/-- Claim C1 counterexample: the result-file poller `pollForFile` of
roi-manager.js has no attempt ceiling: after 200 consecutive ticks in which
the file is not ready (HTTP 404 on the HEAD request, no terminal status and
no network error) it has already issued 200 status requests — more than any
attempt ceiling appearing in the client (120 and 12) — and its interval is
still scheduled, so it will keep issuing requests. -/
theorem pollForFile_unbounded_counterexample :
    (PollForFile.run "/downloads/u.zip"
        (List.replicate 200 (PollForFile.Outcome.resp 404))).active = true ∧
    (PollForFile.run "/downloads/u.zip"
        (List.replicate 200 (PollForFile.Outcome.resp 404))).requests = 200 := by
  have h := pollForFile_404_live 200 (PollForFile.init "/downloads/u.zip") (by rfl)
  simpa [PollForFile.run, PollForFile.init] using h

/-- Claim C1 (amended): the analysis-job poller (`pollJobStatus`,
`maxAttempts = 120`) and the download-job poller (`pollDownloadJobStatus`,
`maxAttempts = 12`) issue at most 120 and 12 status requests in any run; the
result-file poller (`pollForFile` of roi-manager.js) has no attempt ceiling:
it stays live and issues one request per tick for as long as the file is not
ready, and a tick stops it exactly on a ready file (ok response) or a
network error. -/
theorem polling_request_bound_amended :
    (∀ outs, (AnalysisPoll.run outs).requests ≤ 120) ∧
    (∀ outs, (DLPoll.run outs).requests ≤ 12) ∧
    (∀ url n,
      (PollForFile.run url (List.replicate n (PollForFile.Outcome.resp 404))).active = true ∧
      (PollForFile.run url (List.replicate n (PollForFile.Outcome.resp 404))).requests = n) ∧
    (∀ (s : PollForFile.St) (o : PollForFile.Outcome),
      (PollForFile.tick s o).active = (s.active && !PollForFile.terminalOutcome o)) := by
  refine ⟨?_, ?_, ?_, ?_⟩
  · intro outs
    have := foldl_inv
      (fun s : AnalysisPoll.St => s.requests ≤ AnalysisPoll.maxAttempts ∧
        (s.active = true → s.requests ≤ s.attempts))
      AnalysisPoll.tick analysisPoll_tick_inv outs AnalysisPoll.init (by simp [AnalysisPoll.init])
    exact this.1
  · intro outs
    have := foldl_inv
      (fun s : DLPoll.St => s.requests ≤ DLPoll.maxAttempts ∧
        (s.active = true → s.requests ≤ s.attempts))
      DLPoll.tick dlPoll_tick_inv outs DLPoll.init (by simp [DLPoll.init])
    exact this.1
  · intro url n
    have := pollForFile_404_live n (PollForFile.init url) (by rfl)
    simpa [PollForFile.run, PollForFile.init] using this
  · intro s o
    by_cases hact : s.active = false
    · simp [PollForFile.tick, hact]
    · have hac : s.active = true := by revert hact; cases s.active <;> simp
      cases o with
      | netErr => simp [PollForFile.tick, hac, PollForFile.terminalOutcome]
      | resp st =>
        by_cases hok : Api.isOkStatus st = true
        · simp [PollForFile.tick, hac, PollForFile.terminalOutcome, hok]
        · have hok2 : Api.isOkStatus st = false := by
            revert hok
            cases Api.isOkStatus st <;> simp
          simp [PollForFile.tick, hac, PollForFile.terminalOutcome, hok2]

/- ===================================================================
   Claim C2: 401 handling
   =================================================================== -/

/-- Claim C2 counterexample: a backend call through `fetchApi` returns HTTP
401, the token refresh succeeds and the retried request returns 200; the
call resolves normally and no logout redirect to the login page happens, so
not every 401 response triggers a logout redirect. -/
theorem fetchApi_401_no_redirect_counterexample :
    (Api.fetchApi (Api.NetResult.resp 401) true (Api.NetResult.resp 200)).ok = true ∧
    (Api.fetchApi (Api.NetResult.resp 401) true (Api.NetResult.resp 200)).redirect = none := by
  decide

/-- Claim C2 (amended): a 401 response on a `fetchApi` call triggers a token
refresh, and the client redirects to the login page exactly when that
refresh fails; `uploadShapefile` redirects to the login page exactly on a
401 status; a non-ok status (including 401) on a raw-fetch polling request
of `pollDownloadJobStatus` triggers no navigation at all. -/
theorem logout_redirect_amended :
    (∀ (r1 : Api.NetResult) (refreshOk : Bool) (r2 : Api.NetResult),
      (Api.fetchApi r1 refreshOk r2).redirect =
        if r1 = Api.NetResult.resp 401 ∧ refreshOk = false then some Api.loginRedirectUrl
        else none) ∧
    (∀ r : Api.NetResult,
      (Api.uploadShapefile r).redirect =
        if r = Api.NetResult.resp 401 then some Api.loginRedirectUrl else none) ∧
    (∀ (s : DLPoll.St) (st : Nat),
      (DLPoll.tick s (DLPoll.Outcome.errResp st)).downloads = s.downloads) := by
  refine ⟨?_, ?_, ?_⟩
  · intro r1 refreshOk r2
    cases r1 with
    | netErr => simp [Api.fetchApi]
    | resp st =>
      by_cases h401 : st = 401
      · subst h401
        cases refreshOk with
        | false => simp [Api.fetchApi]
        | true =>
          cases r2 with
          | netErr => simp [Api.fetchApi]
          | resp st2 =>
            by_cases hok : Api.isOkStatus st2 = true <;>
              simp [Api.fetchApi, hok]
      · simp only [Api.fetchApi, h401, if_false]
        have hne : Api.NetResult.resp st ≠ Api.NetResult.resp 401 := by
          intro heq
          cases heq
          exact h401 rfl
        split <;> simp [hne]
  · intro r
    cases r with
    | netErr => simp [Api.uploadShapefile]
    | resp st =>
      by_cases h401 : st = 401
      · subst h401
        simp [Api.uploadShapefile]
      · have hne : Api.NetResult.resp st ≠ Api.NetResult.resp 401 := by
          intro heq
          cases heq
          exact h401 rfl
        simp only [Api.uploadShapefile, h401, if_false, hne, if_neg]
        split <;> simp [hne]
  · intro s st
    by_cases hact : s.active = false
    · simp [DLPoll.tick, hact]
    · have hac : s.active = true := by revert hact; cases s.active <;> simp
      simp only [DLPoll.tick, hac]
      by_cases hm : DLPoll.maxAttempts < s.attempts + 1
      · simp [hm]
      · simp only [hm, if_false]
        by_cases h4 : st = 404 <;> simp [h4]

/- ===================================================================
   Claim C3: completion triggers the result download and stops polling
   =================================================================== -/

/-- Claim C3: for both download-job pollers, on the tick where the polled
status first comes back `COMPLETED` (while the loop is live and under its
attempt ceiling) the interval is cancelled, a file download is triggered at
the result URL `/api/v1/roi/jobs/_jobId_/result`, and no further status
requests are issued by that loop. -/
theorem download_completed_triggers_result
    (s : DLPoll.St) (job : DLPoll.DownloadJob)
    (hact : s.active = true) (hceil : s.attempts + 1 ≤ 12)
    (hst : job.status = "COMPLETED")
    (p : JobPollP1.St) (hpact : p.active = true) (hpceil : p.attempts + 1 ≤ 60) :
    ((DLPoll.tick s (DLPoll.Outcome.okResp job)).active = false ∧
     (DLPoll.tick s (DLPoll.Outcome.okResp job)).downloads =
       s.downloads ++ ["/api/v1/roi/jobs/" ++ job.job_id ++ "/result"] ∧
     ∀ rest, DLPoll.runFrom (DLPoll.tick s (DLPoll.Outcome.okResp job)) rest =
       DLPoll.tick s (DLPoll.Outcome.okResp job)) ∧
    ((JobPollP1.tick p (JobPollP1.Outcome.okResp "COMPLETED")).active = false ∧
     (JobPollP1.tick p (JobPollP1.Outcome.okResp "COMPLETED")).navigations =
       p.navigations ++ ["/api/v1/roi/jobs/" ++ p.jobId ++ "/result"] ∧
     ∀ rest, JobPollP1.runFrom (JobPollP1.tick p (JobPollP1.Outcome.okResp "COMPLETED")) rest =
       JobPollP1.tick p (JobPollP1.Outcome.okResp "COMPLETED")) := by
  have hm : ¬(DLPoll.maxAttempts < s.attempts + 1) := by
    simp only [DLPoll.maxAttempts]
    omega
  have hpm : ¬(JobPollP1.maxAttempts < p.attempts + 1) := by
    simp only [JobPollP1.maxAttempts]
    omega
  have hd : (DLPoll.tick s (DLPoll.Outcome.okResp job)).active = false := by
    simp [DLPoll.tick, hact, hm, hst]
  have hp : (JobPollP1.tick p (JobPollP1.Outcome.okResp "COMPLETED")).active = false := by
    simp [JobPollP1.tick, hpact, hpm]
  refine ⟨⟨hd, ?_, dlPoll_inactive_fixed _ hd⟩, ⟨hp, ?_, jobPollP1_inactive_fixed _ hp⟩⟩
  · simp [DLPoll.tick, hact, hm, hst]
  · simp [JobPollP1.tick, hpact, hpm]

/-- Witness for C3 with a concrete completed job on both pollers. -/
theorem download_completed_triggers_result_witness :
    (DLPoll.init.active = true ∧ DLPoll.init.attempts + 1 ≤ 12 ∧
      (DLPoll.DownloadJob.mk "COMPLETED" "42").status = "COMPLETED" ∧
      (JobPollP1.init "7").active = true ∧ (JobPollP1.init "7").attempts + 1 ≤ 60) ∧
    (((DLPoll.tick DLPoll.init (DLPoll.Outcome.okResp (DLPoll.DownloadJob.mk "COMPLETED" "42"))).active = false ∧
      (DLPoll.tick DLPoll.init (DLPoll.Outcome.okResp (DLPoll.DownloadJob.mk "COMPLETED" "42"))).downloads =
        DLPoll.init.downloads ++
          ["/api/v1/roi/jobs/" ++ (DLPoll.DownloadJob.mk "COMPLETED" "42").job_id ++ "/result"] ∧
      ∀ rest, DLPoll.runFrom
          (DLPoll.tick DLPoll.init (DLPoll.Outcome.okResp (DLPoll.DownloadJob.mk "COMPLETED" "42"))) rest =
        DLPoll.tick DLPoll.init (DLPoll.Outcome.okResp (DLPoll.DownloadJob.mk "COMPLETED" "42"))) ∧
     ((JobPollP1.tick (JobPollP1.init "7") (JobPollP1.Outcome.okResp "COMPLETED")).active = false ∧
      (JobPollP1.tick (JobPollP1.init "7") (JobPollP1.Outcome.okResp "COMPLETED")).navigations =
        (JobPollP1.init "7").navigations ++ ["/api/v1/roi/jobs/" ++ (JobPollP1.init "7").jobId ++ "/result"] ∧
      ∀ rest, JobPollP1.runFrom
          (JobPollP1.tick (JobPollP1.init "7") (JobPollP1.Outcome.okResp "COMPLETED")) rest =
        JobPollP1.tick (JobPollP1.init "7") (JobPollP1.Outcome.okResp "COMPLETED"))) :=
  ⟨⟨rfl, by decide, rfl, rfl, by decide⟩,
   download_completed_triggers_result DLPoll.init (DLPoll.DownloadJob.mk "COMPLETED" "42")
     rfl (by decide) rfl (JobPollP1.init "7") rfl (by decide)⟩

/- ===================================================================
   Claim C5: independence of concurrent polling timers
   =================================================================== -/

/-- Helper: firing the interval of one id leaves the state of every other
interval untouched. -/
theorem lookupTimer_stepTimer {σ : Type} (id j : Nat) (f : σ → σ) (h : j ≠ id) :
    ∀ sys : TimerSys σ, lookupTimer j (stepTimer sys id f) = lookupTimer j sys := by
  intro sys
  induction sys with
  | nil => rfl
  | cons e rest ih =>
    by_cases hej : e.1 = j
    · have hnid : ¬(e.1 = id) := by
        rw [hej]
        exact h
      have hhead : (if e.1 = id then (e.1, f e.2) else e) = e := by
        simp [hnid]
      have hbej : (e.1 == j) = true := by
        simp [hej]
      simp [stepTimer, List.map_cons, hhead, lookupTimer, List.find?_cons, hbej]
    · have hfst : (if e.1 = id then (e.1, f e.2) else e).1 = e.1 := by
        split <;> rfl
      have hbej : (e.1 == j) = false := by
        simp [hej]
      simp only [stepTimer, List.map_cons, lookupTimer, List.find?_cons, hfst, hbej, cond_false]
      simpa only [stepTimer, lookupTimer] using ih

/-- Helper: registering a fresh interval id leaves the state of every other
interval untouched. -/
theorem lookupTimer_startTimer {σ : Type} (id j : Nat) (st0 : σ) (h : j ≠ id) :
    ∀ sys : TimerSys σ, lookupTimer j (startTimer sys id st0) = lookupTimer j sys := by
  intro sys
  induction sys with
  | nil =>
    have hbij : (id == j) = false := by
      simp
      intro heq
      exact h heq.symm
    simp [startTimer, lookupTimer, List.find?_cons, hbij]
  | cons e rest ih =>
    simp only [startTimer, List.cons_append] at *
    by_cases hej : e.1 = j
    · simp [lookupTimer, List.find?_cons, hej]
    · have hbej : (e.1 == j) = false := by
        simp [hej]
      simp only [lookupTimer, List.find?_cons, hbej, cond_false] at *
      exact ih

/-- Helper: the analysis poller stays live after a tick exactly when it was
live, under its ceiling, and got a resolved job with a non-terminal
status. -/
theorem analysisPoll_active_iff (s : AnalysisPoll.St) (o : AnalysisPoll.Outcome) :
    (AnalysisPoll.tick s o).active = true ↔
      s.active = true ∧ s.attempts + 1 ≤ 120 ∧
      ∃ job, o = AnalysisPoll.Outcome.ok job ∧
        ¬(job.status = "COMPLETED" ∨ job.status = "FAILED") := by
  by_cases hact : s.active = false
  · have : s.active ≠ true := by
      rw [hact]
      simp
    simp [AnalysisPoll.tick, hact, this]
  · have hac : s.active = true := by revert hact; cases s.active <;> simp
    simp only [AnalysisPoll.tick, hac, if_false, reduceIte]
    by_cases hm : AnalysisPoll.maxAttempts < s.attempts + 1
    · have : ¬(s.attempts + 1 ≤ 120) := by
        simp only [AnalysisPoll.maxAttempts] at hm
        omega
      simp [hm, hac, this]
    · have hle : s.attempts + 1 ≤ 120 := by
        simp only [AnalysisPoll.maxAttempts] at hm
        omega
      simp only [hm, if_false, reduceIte]
      cases o with
      | err => simp [hac, hle]
      | ok job =>
        by_cases hs : job.status = "COMPLETED" ∨ job.status = "FAILED"
        · simp [hs, hac, hle]
          tauto
        · simp [hs, hac, hle]
          tauto

/-- Helper: the download poller stays live after a tick exactly when it was
live, under its ceiling, and the tick was a silent 404 or a resolved job
with a non-terminal status. -/
theorem dlPoll_active_iff (s : DLPoll.St) (o : DLPoll.Outcome) :
    (DLPoll.tick s o).active = true ↔
      s.active = true ∧ s.attempts + 1 ≤ 12 ∧
      (o = DLPoll.Outcome.errResp 404 ∨
       ∃ job, o = DLPoll.Outcome.okResp job ∧
         job.status ≠ "COMPLETED" ∧ job.status ≠ "FAILED") := by
  by_cases hact : s.active = false
  · have : s.active ≠ true := by
      rw [hact]
      simp
    simp [DLPoll.tick, hact, this]
  · have hac : s.active = true := by revert hact; cases s.active <;> simp
    simp only [DLPoll.tick, hac, if_false, reduceIte]
    by_cases hm : DLPoll.maxAttempts < s.attempts + 1
    · have : ¬(s.attempts + 1 ≤ 12) := by
        simp only [DLPoll.maxAttempts] at hm
        omega
      simp [hm, hac, this]
    · have hle : s.attempts + 1 ≤ 12 := by
        simp only [DLPoll.maxAttempts] at hm
        omega
      simp only [hm, if_false, reduceIte]
      cases o with
      | netErr => simp [hac, hle]
      | errResp st =>
        by_cases h4 : st = 404
        · simp [h4, hac, hle]
        · simp [h4, hac, hle]
      | okResp job =>
        by_cases hc : job.status = "COMPLETED"
        · simp [hc, hac, hle]
        · by_cases hf : job.status = "FAILED"
          · simp [hc, hf, hac, hle]
          · by_cases hp : job.status = "PROCESSING"
            · simp [hc, hf, hp, hac, hle]
            · simp [hc, hf, hp, hac, hle]

/-- Claim C5: polling timers are independent: firing or registering the
interval of one job never cancels or alters the timer state of another
in-flight job, and each of the two cited pollers clears only its own
interval, doing so exactly on terminal status, attempt-count exhaustion, or
error. -/
theorem polling_timers_independent {σ : Type}
    (sys : TimerSys σ) (id : Nat) (f : σ → σ) (st0 : σ) (j : Nat) (h : j ≠ id)
    (s : AnalysisPoll.St) (o : AnalysisPoll.Outcome)
    (t : DLPoll.St) (o2 : DLPoll.Outcome) :
    lookupTimer j (stepTimer sys id f) = lookupTimer j sys ∧
    lookupTimer j (startTimer sys id st0) = lookupTimer j sys ∧
    ((AnalysisPoll.tick s o).active = true ↔
      s.active = true ∧ s.attempts + 1 ≤ 120 ∧
      ∃ job, o = AnalysisPoll.Outcome.ok job ∧
        ¬(job.status = "COMPLETED" ∨ job.status = "FAILED")) ∧
    ((DLPoll.tick t o2).active = true ↔
      t.active = true ∧ t.attempts + 1 ≤ 12 ∧
      (o2 = DLPoll.Outcome.errResp 404 ∨
       ∃ job, o2 = DLPoll.Outcome.okResp job ∧
         job.status ≠ "COMPLETED" ∧ job.status ≠ "FAILED")) :=
  ⟨lookupTimer_stepTimer id j f h sys, lookupTimer_startTimer id j st0 h sys,
   analysisPoll_active_iff s o, dlPoll_active_iff t o2⟩

/-- Witness for C5 on a concrete two-timer system. -/
theorem polling_timers_independent_witness :
    (2 : Nat) ≠ 1 ∧
    (lookupTimer 2 (stepTimer [(1, DLPoll.init), (2, DLPoll.init)] 1 id) =
        lookupTimer 2 [(1, DLPoll.init), (2, DLPoll.init)] ∧
      lookupTimer 2 (startTimer [(1, DLPoll.init), (2, DLPoll.init)] 1 DLPoll.init) =
        lookupTimer 2 [(1, DLPoll.init), (2, DLPoll.init)] ∧
      ((AnalysisPoll.tick AnalysisPoll.init AnalysisPoll.Outcome.err).active = true ↔
        AnalysisPoll.init.active = true ∧ AnalysisPoll.init.attempts + 1 ≤ 120 ∧
        ∃ job, AnalysisPoll.Outcome.err = AnalysisPoll.Outcome.ok job ∧
          ¬(job.status = "COMPLETED" ∨ job.status = "FAILED")) ∧
      ((DLPoll.tick DLPoll.init DLPoll.Outcome.netErr).active = true ↔
        DLPoll.init.active = true ∧ DLPoll.init.attempts + 1 ≤ 12 ∧
        (DLPoll.Outcome.netErr = DLPoll.Outcome.errResp 404 ∨
         ∃ job, DLPoll.Outcome.netErr = DLPoll.Outcome.okResp job ∧
           job.status ≠ "COMPLETED" ∧ job.status ≠ "FAILED"))) :=
  ⟨by decide,
   polling_timers_independent [(1, DLPoll.init), (2, DLPoll.init)] 1 id DLPoll.init 2
     (by decide) AnalysisPoll.init AnalysisPoll.Outcome.err DLPoll.init
     DLPoll.Outcome.netErr⟩

/- ===================================================================
   Claim C6: network errors stop each polling loop with an inline error
   =================================================================== -/

/-- Claim C6: on every polling loop, a rejected fetch on a live tick is
caught locally: the loop renders an inline error message into its own status
element, cancels its interval, and issues no further requests. -/
theorem poll_network_error_stops_loop
    (a : AnalysisPoll.St) (ha : a.active = true) (han : a.attempts + 1 ≤ 120)
    (d : DLPoll.St) (hd : d.active = true) (hdn : d.attempts + 1 ≤ 12)
    (p : PollForFile.St) (hp : p.active = true)
    (q : JobPollP1.St) (hq : q.active = true) (hqn : q.attempts + 1 ≤ 60) :
    ((AnalysisPoll.tick a AnalysisPoll.Outcome.err).active = false ∧
     (AnalysisPoll.tick a AnalysisPoll.Outcome.err).msg = Msg.errorNetwork ∧
     ∀ rest, AnalysisPoll.runFrom (AnalysisPoll.tick a AnalysisPoll.Outcome.err) rest =
       AnalysisPoll.tick a AnalysisPoll.Outcome.err) ∧
    ((DLPoll.tick d DLPoll.Outcome.netErr).active = false ∧
     (DLPoll.tick d DLPoll.Outcome.netErr).msg = Msg.errorNetwork ∧
     ∀ rest, DLPoll.runFrom (DLPoll.tick d DLPoll.Outcome.netErr) rest =
       DLPoll.tick d DLPoll.Outcome.netErr) ∧
    ((PollForFile.tick p PollForFile.Outcome.netErr).active = false ∧
     (PollForFile.tick p PollForFile.Outcome.netErr).msg = Msg.errorFileCheck ∧
     ∀ rest, PollForFile.runFrom (PollForFile.tick p PollForFile.Outcome.netErr) rest =
       PollForFile.tick p PollForFile.Outcome.netErr) ∧
    ((JobPollP1.tick q JobPollP1.Outcome.netErr).active = false ∧
     (JobPollP1.tick q JobPollP1.Outcome.netErr).msg = Msg.errorNetwork ∧
     ∀ rest, JobPollP1.runFrom (JobPollP1.tick q JobPollP1.Outcome.netErr) rest =
       JobPollP1.tick q JobPollP1.Outcome.netErr) := by
  have hma : ¬(AnalysisPoll.maxAttempts < a.attempts + 1) := by
    simp only [AnalysisPoll.maxAttempts]
    omega
  have hmd : ¬(DLPoll.maxAttempts < d.attempts + 1) := by
    simp only [DLPoll.maxAttempts]
    omega
  have hmq : ¬(JobPollP1.maxAttempts < q.attempts + 1) := by
    simp only [JobPollP1.maxAttempts]
    omega
  have ha1 : (AnalysisPoll.tick a AnalysisPoll.Outcome.err).active = false := by
    simp [AnalysisPoll.tick, ha, hma]
  have hd1 : (DLPoll.tick d DLPoll.Outcome.netErr).active = false := by
    simp [DLPoll.tick, hd, hmd]
  have hp1 : (PollForFile.tick p PollForFile.Outcome.netErr).active = false := by
    simp [PollForFile.tick, hp]
  have hq1 : (JobPollP1.tick q JobPollP1.Outcome.netErr).active = false := by
    simp [JobPollP1.tick, hq, hmq]
  refine ⟨⟨ha1, ?_, analysisPoll_inactive_fixed _ ha1⟩,
    ⟨hd1, ?_, dlPoll_inactive_fixed _ hd1⟩,
    ⟨hp1, ?_, pollForFile_inactive_fixed _ hp1⟩,
    ⟨hq1, ?_, jobPollP1_inactive_fixed _ hq1⟩⟩
  · simp [AnalysisPoll.tick, ha, hma]
  · simp [DLPoll.tick, hd, hmd]
  · simp [PollForFile.tick, hp]
  · simp [JobPollP1.tick, hq, hmq]

/-- Witness for C6 with all four pollers at their initial states. -/
theorem poll_network_error_stops_loop_witness :
    (AnalysisPoll.init.active = true ∧ AnalysisPoll.init.attempts + 1 ≤ 120 ∧
      DLPoll.init.active = true ∧ DLPoll.init.attempts + 1 ≤ 12 ∧
      (PollForFile.init "/d.zip").active = true ∧
      (JobPollP1.init "9").active = true ∧ (JobPollP1.init "9").attempts + 1 ≤ 60) ∧
    (((AnalysisPoll.tick AnalysisPoll.init AnalysisPoll.Outcome.err).active = false ∧
      (AnalysisPoll.tick AnalysisPoll.init AnalysisPoll.Outcome.err).msg = Msg.errorNetwork ∧
      ∀ rest, AnalysisPoll.runFrom (AnalysisPoll.tick AnalysisPoll.init AnalysisPoll.Outcome.err) rest =
        AnalysisPoll.tick AnalysisPoll.init AnalysisPoll.Outcome.err) ∧
     ((DLPoll.tick DLPoll.init DLPoll.Outcome.netErr).active = false ∧
      (DLPoll.tick DLPoll.init DLPoll.Outcome.netErr).msg = Msg.errorNetwork ∧
      ∀ rest, DLPoll.runFrom (DLPoll.tick DLPoll.init DLPoll.Outcome.netErr) rest =
        DLPoll.tick DLPoll.init DLPoll.Outcome.netErr) ∧
     ((PollForFile.tick (PollForFile.init "/d.zip") PollForFile.Outcome.netErr).active = false ∧
      (PollForFile.tick (PollForFile.init "/d.zip") PollForFile.Outcome.netErr).msg = Msg.errorFileCheck ∧
      ∀ rest, PollForFile.runFrom
          (PollForFile.tick (PollForFile.init "/d.zip") PollForFile.Outcome.netErr) rest =
        PollForFile.tick (PollForFile.init "/d.zip") PollForFile.Outcome.netErr) ∧
     ((JobPollP1.tick (JobPollP1.init "9") JobPollP1.Outcome.netErr).active = false ∧
      (JobPollP1.tick (JobPollP1.init "9") JobPollP1.Outcome.netErr).msg = Msg.errorNetwork ∧
      ∀ rest, JobPollP1.runFrom
          (JobPollP1.tick (JobPollP1.init "9") JobPollP1.Outcome.netErr) rest =
        JobPollP1.tick (JobPollP1.init "9") JobPollP1.Outcome.netErr)) :=
  ⟨⟨rfl, by decide, rfl, by decide, rfl, rfl, by decide⟩,
   poll_network_error_stops_loop AnalysisPoll.init rfl (by decide)
     DLPoll.init rfl (by decide) (PollForFile.init "/d.zip") rfl
     (JobPollP1.init "9") rfl (by decide)⟩

/- ===================================================================
   Claim C9: normalizeName totality and idempotence
   =================================================================== -/

namespace TextNormalizer

/-- Helper: a successful association-list lookup exhibits a member pair. -/
theorem lookup_pair_mem {l : List (Char × Char)} {a b : Char}
    (h : l.lookup a = some b) : (a, b) ∈ l := by
  rcases List.lookup_eq_some_iff.1 h with ⟨l1, l2, rfl, -⟩
  simp

/-- Helper: facts about every entry of `lowerTable`, checked by
computation: no value is the mojibake head `'Ã'`, keys and values are
non-whitespace, and no value is itself a key. -/
theorem lowerTable_facts :
    ∀ p ∈ lowerTable, p.2 ≠ 'Ã' ∧ isSpaceJS p.1 = false ∧ isSpaceJS p.2 = false ∧
      lowerTable.lookup p.2 = none := by decide

/-- Helper: lower casing never produces the mojibake head `'Ã'`. -/
theorem toLowerJS_ne_Atilde (c : Char) : toLowerJS c ≠ 'Ã' := by
  cases hl : lowerTable.lookup c with
  | none =>
    have hred : toLowerJS c = c := by
      unfold toLowerJS
      rw [hl]
    rw [hred]
    intro hc
    rw [hc] at hl
    have hA : lowerTable.lookup 'Ã' = some 'ã' := by decide
    rw [hA] at hl
    cases hl
  | some v =>
    have hred : toLowerJS c = v := by
      unfold toLowerJS
      rw [hl]
    rw [hred]
    exact (lowerTable_facts _ (lookup_pair_mem hl)).1

/-- Helper: lower casing preserves whitespace-ness of a character. -/
theorem isSpaceJS_toLowerJS (c : Char) : isSpaceJS (toLowerJS c) = isSpaceJS c := by
  unfold toLowerJS
  cases hl : lowerTable.lookup c with
  | none => rfl
  | some v =>
    have hf := lowerTable_facts _ (lookup_pair_mem hl)
    rw [hf.2.2.1, hf.2.1]

/-- Helper: per-character lower casing is idempotent. -/
theorem toLowerJS_idem (c : Char) : toLowerJS (toLowerJS c) = toLowerJS c := by
  unfold toLowerJS
  cases hl : lowerTable.lookup c with
  | none => simp [hl]
  | some v =>
    have hf := lowerTable_facts _ (lookup_pair_mem hl)
    simp [hl, hf.2.2.2]

/-- Helper: no character of a lower-cased string is `'Ã'`. -/
theorem map_toLowerJS_ne_Atilde (y : List Char) : ∀ c ∈ y.map toLowerJS, c ≠ 'Ã' := by
  intro c hc
  rcases List.mem_map.1 hc with ⟨d, -, rfl⟩
  exact toLowerJS_ne_Atilde d

/-- Helper: a replacement pass whose pattern head occurs nowhere in the text
leaves the text unchanged, for every fuel value. -/
theorem replaceAllAux_eq_self (p0 : Char) (ps rep : List Char) :
    ∀ (f : Nat) (t : List Char), (∀ c ∈ t, c ≠ p0) →
      replaceAllAux p0 ps rep f t = t := by
  intro f
  induction f with
  | zero =>
    intro t _
    cases t <;> rfl
  | succ f ih =>
    intro t h
    cases t with
    | nil => rfl
    | cons c rest =>
      have hc : c ≠ p0 := h c (List.mem_cons_self c rest)
      have hpre : hasPrefixChars (p0 :: ps) (c :: rest) = false := by
        simp only [hasPrefixChars, Bool.and_eq_false_iff]
        left
        simp only [beq_eq_false_iff_ne, ne_eq]
        intro heq
        exact hc heq.symm
      simp only [replaceAllAux, hpre, Bool.false_eq_true, if_false]
      rw [ih rest (fun d hd => h d (List.mem_cons_of_mem c hd))]

/-- Helper: a replacement whose pattern head occurs nowhere in the text
leaves the text unchanged. -/
theorem replaceAll_eq_self (p0 : Char) (ps rep t : List Char)
    (h : ∀ c ∈ t, c ≠ p0) : replaceAll p0 ps rep t = t :=
  replaceAllAux_eq_self p0 ps rep t.length t h

/-- Helper: all correction passes leave a text without `'Ã'` unchanged. -/
theorem corrections_foldl_eq_self :
    ∀ (L : List Correction) (t : List Char), (∀ k ∈ L, k.headChar = 'Ã') →
      (∀ c ∈ t, c ≠ 'Ã') →
      L.foldl (fun t k => replaceAll k.headChar k.restChars k.repl t) t = t := by
  intro L
  induction L with
  | nil => intro t _ _; rfl
  | cons k L ih =>
    intro t hL ht
    rw [List.foldl_cons]
    have hk : k.headChar = 'Ã' := hL k (List.mem_cons_self _ _)
    have h1 : replaceAll k.headChar k.restChars k.repl t = t := by
      apply replaceAll_eq_self
      intro c hc
      rw [hk]
      exact ht c hc
    rw [h1]
    exact ih t (fun k2 hk2 => hL k2 (List.mem_cons_of_mem _ hk2)) ht

/-- Helper: `applyCorrections` fixes every text without `'Ã'` (all
`CHAR_CORRECTIONS` keys start with `'Ã'`). -/
theorem applyCorrections_eq_self (t : List Char) (ht : ∀ c ∈ t, c ≠ 'Ã') :
    applyCorrections t = t :=
  corrections_foldl_eq_self CHAR_CORRECTIONS t (by decide) ht

/-- Helper: `takeWhile` keeps a list all of whose elements satisfy the
predicate. -/
theorem takeWhile_all_eq (p : Char → Bool) :
    ∀ l : List Char, (∀ c ∈ l, p c = true) → l.takeWhile p = l := by
  intro l
  induction l with
  | nil => intro _; rfl
  | cons c rest ih =>
    intro h
    rw [List.takeWhile_cons_of_pos (h c (List.mem_cons_self c rest))]
    rw [ih (fun d hd => h d (List.mem_cons_of_mem c hd))]

/-- Helper: `dropWhile` empties a list all of whose elements satisfy the
predicate. -/
theorem dropWhile_all_eq (p : Char → Bool) :
    ∀ l : List Char, (∀ c ∈ l, p c = true) → l.dropWhile p = [] := by
  intro l
  induction l with
  | nil => intro _; rfl
  | cons c rest ih =>
    intro h
    rw [List.dropWhile_cons_of_pos (h c (List.mem_cons_self c rest))]
    exact ih (fun d hd => h d (List.mem_cons_of_mem c hd))

/-- Helper: `takeWhile` over an all-satisfying block stops at a failing
element. -/
theorem takeWhile_append_stop (p : Char → Bool) (y : Char) (zs : List Char)
    (hy : p y = false) :
    ∀ w : List Char, (∀ c ∈ w, p c = true) → (w ++ y :: zs).takeWhile p = w := by
  intro w
  induction w with
  | nil =>
    intro _
    simp only [List.nil_append]
    rw [List.takeWhile_cons_of_neg (by simp [hy])]
  | cons c rest ih =>
    intro h
    rw [List.cons_append,
      List.takeWhile_cons_of_pos (h c (List.mem_cons_self c rest))]
    rw [ih (fun d hd => h d (List.mem_cons_of_mem c hd))]

/-- Helper: `dropWhile` over an all-satisfying block stops at a failing
element. -/
theorem dropWhile_append_stop (p : Char → Bool) (y : Char) (zs : List Char)
    (hy : p y = false) :
    ∀ w : List Char, (∀ c ∈ w, p c = true) → (w ++ y :: zs).dropWhile p = y :: zs := by
  intro w
  induction w with
  | nil =>
    intro _
    simp only [List.nil_append]
    rw [List.dropWhile_cons_of_neg (by simp [hy])]
  | cons c rest ih =>
    intro h
    rw [List.cons_append,
      List.dropWhile_cons_of_pos (h c (List.mem_cons_self c rest))]
    exact ih (fun d hd => h d (List.mem_cons_of_mem c hd))

/-- Helper: `wordsByAux` is fuel-irrelevant as long as the fuel covers the
text length. -/
theorem wordsByAux_fuel_eq :
    ∀ (f g : Nat) (t : List Char), t.length ≤ f → t.length ≤ g →
      wordsByAux f t = wordsByAux g t := by
  intro f
  induction f with
  | zero =>
    intro g t hf _
    have ht : t = [] := List.length_eq_zero.1 (Nat.le_zero.1 hf)
    subst ht
    cases g <;> rfl
  | succ f ih =>
    intro g t hf hg
    cases t with
    | nil => cases g <;> rfl
    | cons c rest =>
      cases g with
      | zero => simp at hg
      | succ g =>
        simp only [wordsByAux]
        by_cases hsp : isSpaceJS c
        · rw [if_pos hsp, if_pos hsp]
          exact ih g rest (by simp at hf; omega) (by simp at hg; omega)
        · rw [if_neg hsp, if_neg hsp]
          congr 1
          have hd : (rest.dropWhile (fun d => !isSpaceJS d)).length ≤ rest.length :=
            (List.dropWhile_sublist _).length_le
          exact ih g _ (by simp at hf; omega) (by simp at hg; omega)

/-- Helper: the one-step unfolding of `wordsBy` on a non-empty string. -/
theorem wordsBy_cons (c : Char) (rest : List Char) :
    wordsBy (c :: rest) =
      if isSpaceJS c then wordsBy rest
      else (c :: rest.takeWhile (fun d => !isSpaceJS d)) ::
        wordsBy (rest.dropWhile (fun d => !isSpaceJS d)) := by
  show wordsByAux (rest.length + 1) (c :: rest) = _
  simp only [wordsByAux]
  by_cases hsp : isSpaceJS c
  · rw [if_pos hsp, if_pos hsp]
    rfl
  · rw [if_neg hsp, if_neg hsp]
    congr 1
    exact wordsByAux_fuel_eq rest.length _ _ ((List.dropWhile_sublist _).length_le)
      (Nat.le_refl _)

/-- Helper: the words produced by `wordsByAux` are non-empty and
whitespace-free, for every fuel value. -/
theorem wordsByAux_good : ∀ (f : Nat) (t : List Char), GoodWords (wordsByAux f t) := by
  intro f
  induction f with
  | zero =>
    intro t w hw
    cases t <;> simp [wordsByAux] at hw
  | succ f ih =>
    intro t
    cases t with
    | nil =>
      intro w hw
      simp [wordsByAux] at hw
    | cons c rest =>
      by_cases hsp : isSpaceJS c
      · simp only [wordsByAux, if_pos hsp]
        exact ih rest
      · simp only [wordsByAux, if_neg hsp]
        intro w hw
        rcases List.mem_cons.1 hw with hw1 | hw2
        · subst hw1
          refine ⟨by simp, ?_⟩
          intro d hd
          rcases List.mem_cons.1 hd with hd1 | hd2
          · subst hd1
            revert hsp
            cases isSpaceJS d <;> simp
          · have := List.mem_takeWhile_imp hd2
            revert this
            cases isSpaceJS d <;> simp
        · exact ih _ w hw2

/-- Helper: the words produced by `wordsBy` are non-empty and
whitespace-free. -/
theorem wordsBy_good (s : List Char) : GoodWords (wordsBy s) :=
  wordsByAux_good s.length s

/-- Helper: `wordsBy` recovers a good word list from its space-joined
form. -/
theorem wordsBy_joinSp : ∀ ws : List (List Char), GoodWords ws →
    wordsBy (joinSp ws) = ws := by
  intro ws
  induction ws with
  | nil => intro _; rfl
  | cons w vs ih =>
    intro h
    obtain ⟨hne, hnsp⟩ := h w (List.mem_cons_self _ _)
    cases w with
    | nil => exact absurd rfl hne
    | cons c cs =>
      have hc : isSpaceJS c = false := hnsp c (List.mem_cons_self _ _)
      have hcb : ¬(isSpaceJS c = true) := by simp [hc]
      have hcs : ∀ d ∈ cs, (fun d => !isSpaceJS d) d = true := by
        intro d hd
        have := hnsp d (List.mem_cons_of_mem c hd)
        simp [this]
      cases vs with
      | nil =>
        show wordsBy (c :: cs) = [c :: cs]
        rw [wordsBy_cons, if_neg hcb]
        rw [takeWhile_all_eq _ cs hcs, dropWhile_all_eq _ cs hcs]
        rfl
      | cons v vs2 =>
        have hjoin : joinSp ((c :: cs) :: v :: vs2) =
            c :: (cs ++ ' ' :: joinSp (v :: vs2)) := rfl
        rw [hjoin, wordsBy_cons, if_neg hcb]
        rw [takeWhile_append_stop _ ' ' _ (by decide) cs hcs]
        rw [dropWhile_append_stop _ ' ' _ (by decide) cs hcs]
        rw [wordsBy_cons, if_pos (by decide)]
        rw [ih (fun w2 hw2 => h w2 (List.mem_cons_of_mem _ hw2))]

/-- Helper: lower casing distributes over the space-join of words. -/
theorem map_toLowerJS_joinSp : ∀ ws : List (List Char),
    (joinSp ws).map toLowerJS = joinSp (ws.map (List.map toLowerJS)) := by
  intro ws
  induction ws with
  | nil => rfl
  | cons w vs ih =>
    cases vs with
    | nil => rfl
    | cons v vs2 =>
      have h1 : joinSp (w :: v :: vs2) = w ++ ' ' :: joinSp (v :: vs2) := rfl
      have h2 : joinSp ((w.map toLowerJS) :: (v :: vs2).map (List.map toLowerJS)) =
          w.map toLowerJS ++ ' ' :: joinSp ((v :: vs2).map (List.map toLowerJS)) := rfl
      rw [h1, List.map_cons, h2, List.map_append, List.map_cons]
      have hspc : toLowerJS ' ' = ' ' := by decide
      rw [hspc, ih]

/-- Helper: lower casing a good word list keeps it good. -/
theorem goodWords_map_toLowerJS (ws : List (List Char)) (h : GoodWords ws) :
    GoodWords (ws.map (List.map toLowerJS)) := by
  intro w hw
  rcases List.mem_map.1 hw with ⟨w0, hw0, rfl⟩
  obtain ⟨hne, hnsp⟩ := h w0 hw0
  constructor
  · simp [hne]
  · intro c hc
    rcases List.mem_map.1 hc with ⟨d, hd, rfl⟩
    rw [isSpaceJS_toLowerJS]
    exact hnsp d hd

/-- Helper: lower casing a string twice equals lower casing it once. -/
theorem map_toLowerJS_idem (y : List Char) :
    (y.map toLowerJS).map toLowerJS = y.map toLowerJS := by
  rw [List.map_map]
  exact List.map_congr_left (fun a _ => toLowerJS_idem a)

/-- Helper: the lower-cased collapse of any text is a fixed point of the
three pipeline stages of `normalizeName` with case type `'lower'`. -/
theorem lower_out_fixed (u : List Char) :
    applyCorrections ((collapseWS u).map toLowerJS) = (collapseWS u).map toLowerJS ∧
    collapseWS ((collapseWS u).map toLowerJS) = (collapseWS u).map toLowerJS ∧
    ((collapseWS u).map toLowerJS).map toLowerJS = (collapseWS u).map toLowerJS := by
  refine ⟨applyCorrections_eq_self _ (map_toLowerJS_ne_Atilde _), ?_, map_toLowerJS_idem _⟩
  simp only [collapseWS]
  rw [map_toLowerJS_joinSp]
  rw [wordsBy_joinSp _ (goodWords_map_toLowerJS _ (wordsBy_good u))]

/-- Helper: the `'lower'` branch of `normalizeName` on a non-empty string is
the composite of corrections, collapse, and lower casing. -/
theorem normalizeName_lower_eq (c0 : Char) (cs0 : List Char) :
    normalizeName (JSVal.jstr (c0 :: cs0)) CaseType.lower =
      (collapseWS (applyCorrections (c0 :: cs0))).map toLowerJS := by
  simp only [normalizeName, nfkc]

end TextNormalizer

/-- Claim C9 counterexample: `normalizeName` is not idempotent for the
default case type `'title'`: the input `'ã§'` title-cases to `'Ã§'`, which a
second run corrects (as mojibake) to `'ç'` and title-cases to `'Ç'`. -/
theorem normalizeName_title_not_idem_counterexample :
    TextNormalizer.normalizeName
        (TextNormalizer.JSVal.jstr
          (TextNormalizer.normalizeName (TextNormalizer.JSVal.jstr ['ã', '§'])
            TextNormalizer.CaseType.title))
        TextNormalizer.CaseType.title ≠
      TextNormalizer.normalizeName (TextNormalizer.JSVal.jstr ['ã', '§'])
        TextNormalizer.CaseType.title := by
  decide

/-- Claim C9 (amended): `normalizeName` is total in the sense that every
input that is not a non-empty string maps to the empty string, and on
strings of NFKC-invariant non-combining characters (ASCII plus the Latin-1
letters the module case-maps, the domain where modelling `normalize('NFKC')`
as the identity is exact) it is idempotent for case type `'lower'`; it is
not idempotent for every supported case type and string, because `'title'`
(and `'upper'`) casing can create mojibake correction keys that a second
pass rewrites, and outside the NFKC-fixed domain the normalization step can
rewrite lower-cased output (the builtin composes base/combining-mark
sequences such as U+03CA U+0301 into U+0390). -/
theorem normalizeName_total_and_lower_idem :
    (∀ ct, TextNormalizer.normalizeName TextNormalizer.JSVal.other ct = [] ∧
      TextNormalizer.normalizeName (TextNormalizer.JSVal.jstr []) ct = []) ∧
    (∀ s, (∀ c ∈ s, TextNormalizer.nfkcFixedChar c = true) →
      TextNormalizer.normalizeName
        (TextNormalizer.JSVal.jstr
          (TextNormalizer.normalizeName (TextNormalizer.JSVal.jstr s)
            TextNormalizer.CaseType.lower))
        TextNormalizer.CaseType.lower =
      TextNormalizer.normalizeName (TextNormalizer.JSVal.jstr s)
        TextNormalizer.CaseType.lower) := by
  constructor
  · intro ct
    exact ⟨rfl, rfl⟩
  · intro s _hs
    cases s with
    | nil => rfl
    | cons c0 cs0 =>
      rw [TextNormalizer.normalizeName_lower_eq]
      obtain ⟨h1, h2, h3⟩ :=
        TextNormalizer.lower_out_fixed (TextNormalizer.applyCorrections (c0 :: cs0))
      cases hcase : (TextNormalizer.collapseWS
          (TextNormalizer.applyCorrections (c0 :: cs0))).map TextNormalizer.toLowerJS with
      | nil => rfl
      | cons d ds =>
        rw [TextNormalizer.normalizeName_lower_eq d ds]
        rw [← hcase, h1, h2, h3]

/-- Witness for C9 on the concrete NFKC-fixed string `' SÃO paulo '`. -/
theorem normalizeName_total_and_lower_idem_witness :
    (∀ c ∈ (" SÃO paulo ").toList, TextNormalizer.nfkcFixedChar c = true) ∧
    TextNormalizer.normalizeName
        (TextNormalizer.JSVal.jstr
          (TextNormalizer.normalizeName
            (TextNormalizer.JSVal.jstr (" SÃO paulo ").toList)
            TextNormalizer.CaseType.lower))
        TextNormalizer.CaseType.lower =
      TextNormalizer.normalizeName
        (TextNormalizer.JSVal.jstr (" SÃO paulo ").toList)
        TextNormalizer.CaseType.lower :=
  ⟨by decide,
   normalizeName_total_and_lower_idem.2 (" SÃO paulo ").toList (by decide)⟩

end Dashboard
